import Mathlib

/-
  Verification of the unified (omnidirectional) projection camera model
  (aslam_cv, UnifiedProjectionCamera).

  The C++ code computes over IEEE doubles; the embedding models doubles as
  exact rationals.  Calls to the external square-root routine (std::sqrt,
  Eigen .norm()) are modelled by an explicit oracle parameter sq, so that
  all definitions stay computable; no claim below depends on analytic
  properties of the square root.
-/

namespace Aslam

/-- ProjectionResult status codes, from the external ProjectionResult value type. -/
inductive ProjectionResult where
  | KEYPOINT_VISIBLE
  | KEYPOINT_OUTSIDE_IMAGE_BOX
  | PROJECTION_INVALID
  deriving DecidableEq, Repr

/-- A 2x2 matrix of rationals, row-major fields. -/
structure Mat2x2 where
  a00 : ℚ
  a01 : ℚ
  a10 : ℚ
  a11 : ℚ
  deriving DecidableEq, Repr

/-- The 2x2 identity matrix (Eigen Matrix2d Identity). -/
def Mat2x2.id2 : Mat2x2 := ⟨1, 0, 0, 1⟩

/-- A 2x3 matrix of rationals, row-major fields. -/
structure Mat2x3 where
  a00 : ℚ
  a01 : ℚ
  a02 : ℚ
  a10 : ℚ
  a11 : ℚ
  a12 : ℚ
  deriving DecidableEq, Repr

/-- A dynamically sized 2-row matrix: the two rows as lists. -/
abbrev Mat2xN := List ℚ × List ℚ

/-- Modelled from the spec: the polymorphic Distortion collaborator (spec sections 3 and 6),
whose implementation is outside src/.  It applies/undoes a 2D warp on normalized
image-plane coordinates and exposes its own parameter Jacobian.  The underlying
fields take the actual coefficient vector; the members below reproduce the
documented pointer interface, where a null coefficient vector means the
distortion object falls back on its internally stored parameters (as documented
at the project3Functional declaration in camera-unified-projection.h). -/
structure Distortion where
  params : List ℚ
  distortWithCoeffs : List ℚ → ℚ × ℚ → ℚ × ℚ
  distortJacWithCoeffs : List ℚ → ℚ × ℚ → Mat2x2
  undistortFn : ℚ × ℚ → ℚ × ℚ
  paramJacWithCoeffs : List ℚ → ℚ × ℚ → Mat2xN

/-- Distortion interface: getParameters(). -/
def Distortion.getParameters (D : Distortion) : List ℚ := D.params

/-- Distortion interface: the distorted point computed by
distortUsingExternalCoefficients (null coefficients mean internal parameters). -/
def Distortion.distortPointWith (D : Distortion) (coeffs : Option (List ℚ)) (p : ℚ × ℚ) : ℚ × ℚ :=
  D.distortWithCoeffs (coeffs.getD D.params) p

/-- Distortion interface: the 2x2 Jacobian output of
distortUsingExternalCoefficients when its Jacobian output pointer is non-null. -/
def Distortion.distortJacWith (D : Distortion) (coeffs : Option (List ℚ)) (p : ℚ × ℚ) : Mat2x2 :=
  D.distortJacWithCoeffs (coeffs.getD D.params) p

/-- Distortion interface: distort(point) using the internally stored parameters. -/
def Distortion.distort (D : Distortion) (p : ℚ × ℚ) : ℚ × ℚ :=
  D.distortWithCoeffs D.params p

/-- Distortion interface: undistort(point). -/
def Distortion.undistort (D : Distortion) (p : ℚ × ℚ) : ℚ × ℚ :=
  D.undistortFn p

/-- Distortion interface: distortParameterJacobian (null coefficients mean
internal parameters). -/
def Distortion.distortParameterJacobian (D : Distortion) (coeffs : Option (List ℚ))
    (p : ℚ × ℚ) : Mat2xN :=
  D.paramJacWithCoeffs (coeffs.getD D.params) p

/-- The five intrinsic parameters (xi, fu, fv, cu, cv), in source order. -/
structure Intrinsics5 where
  xi : ℚ
  fu : ℚ
  fv : ℚ
  cu : ℚ
  cv : ℚ
  deriving DecidableEq, Repr

/-- The unified projection camera state: intrinsics, image size and the
optional distortion object. -/
structure UnifiedProjectionCamera where
  intr : Intrinsics5
  imageWidth : ℕ
  imageHeight : ℕ
  dist : Option Distortion

namespace UnifiedProjectionCamera

/-- Accessor xi(). -/
def xi (c : UnifiedProjectionCamera) : ℚ := c.intr.xi

/-- Accessor fu(). -/
def fu (c : UnifiedProjectionCamera) : ℚ := c.intr.fu

/-- Accessor fv(). -/
def fv (c : UnifiedProjectionCamera) : ℚ := c.intr.fv

/-- Accessor cu(). -/
def cu (c : UnifiedProjectionCamera) : ℚ := c.intr.cu

/-- Accessor cv(). -/
def cv (c : UnifiedProjectionCamera) : ℚ := c.intr.cv

/-- Accessor getParameters(): the stored intrinsics vector. -/
def getParameters (c : UnifiedProjectionCamera) : Intrinsics5 := c.intr

end UnifiedProjectionCamera

/-- fov_parameter from camera-unified-projection.h: xi if xi <= 1 else 1/xi. -/
def fov_parameter (xi : ℚ) : ℚ := if xi ≤ 1 then xi else 1 / xi

/-- kMinimumDepth = 1e-10 from camera-unified-projection.h. -/
def kMinimumDepth : ℚ := 1 / 10 ^ 10

/-- Modelled from the spec: Camera::isKeypointVisible of the base camera class
(outside src/), deciding membership in the visibility box
[0, width) x [0, height) (spec section 3, image geometry). -/
def UnifiedProjectionCamera.isKeypointVisible (c : UnifiedProjectionCamera)
    (kp : ℚ × ℚ) : Bool :=
  decide (0 ≤ kp.1) && decide (kp.1 < (c.imageWidth : ℚ)) &&
  decide (0 ≤ kp.2) && decide (kp.2 < (c.imageHeight : ℚ))

/-- UnifiedProjectionCamera::evaluateProjectionResult, translated from
camera-unified-projection.cc lines 233-250. -/
def UnifiedProjectionCamera.evaluateProjectionResult (c : UnifiedProjectionCamera)
    (keypoint : ℚ × ℚ) (point_3d : ℚ × ℚ × ℚ) : ProjectionResult :=
  let visibility := c.isKeypointVisible keypoint
  let d2 := point_3d.1 * point_3d.1 + point_3d.2.1 * point_3d.2.1 +
            point_3d.2.2 * point_3d.2.2
  let minDepth2 := kMinimumDepth * kMinimumDepth
  if visibility && decide (d2 > minDepth2) then .KEYPOINT_VISIBLE
  else if !visibility && decide (d2 > minDepth2) then .KEYPOINT_OUTSIDE_IMAGE_BOX
  else if decide (d2 ≤ minDepth2) then .PROJECTION_INVALID
  else .PROJECTION_INVALID

/-- UnifiedProjectionCamera::isUndistortedKeypointValid, translated from
camera-unified-projection.cc lines 252-255. -/
def isUndistortedKeypointValid (rho2_d : ℚ) (xi : ℚ) : Bool :=
  decide (xi ≤ 1) || decide (rho2_d ≤ 1 / (xi * xi - 1))

/-- The optional undistortion step shared by backProject3 and isLiftable:
apply the distortion object's undistort when a distortion is set. -/
def UnifiedProjectionCamera.undistortIfPresent (c : UnifiedProjectionCamera)
    (p : ℚ × ℚ) : ℚ × ℚ :=
  match c.dist with
  | some D => D.undistort p
  | none => p

/-- UnifiedProjectionCamera::backProject3, translated from
camera-unified-projection.cc lines 91-110.  Returns the written bearing vector
together with the boolean validity flag.  sq is the external square-root
oracle (std::sqrt). -/
def UnifiedProjectionCamera.backProject3 (c : UnifiedProjectionCamera) (sq : ℚ → ℚ)
    (keypoint : ℚ × ℚ) : (ℚ × ℚ × ℚ) × Bool :=
  let kp0 : ℚ × ℚ := ((keypoint.1 - c.cu) / c.fu, (keypoint.2 - c.cv) / c.fv)
  let kp := c.undistortIfPresent kp0
  let rho2_d := kp.1 * kp.1 + kp.2 * kp.2
  let tmpD := max (1 + (1 - c.xi * c.xi) * rho2_d) 0
  ((kp.1, kp.2, 1 - c.xi * (rho2_d + 1) / (c.xi + sq tmpD)),
   isUndistortedKeypointValid rho2_d c.xi)

/-- UnifiedProjectionCamera::isLiftable, translated from
camera-unified-projection.cc lines 257-268. -/
def UnifiedProjectionCamera.isLiftable (c : UnifiedProjectionCamera)
    (keypoint : ℚ × ℚ) : Bool :=
  let y0 : ℚ × ℚ := (1 / c.fu * (keypoint.1 - c.cu), 1 / c.fv * (keypoint.2 - c.cv))
  let y := c.undistortIfPresent y0
  isUndistortedKeypointValid (y.1 * y.1 + y.2 * y.2) c.xi

/-- Resolution of the active distortion-coefficient vector in
project3Functional step 1 (camera-unified-projection.cc lines 130-135):
the camera's stored coefficients when no external vector is supplied and a
distortion is set, otherwise the external vector as given. -/
def UnifiedProjectionCamera.resolveDistCoeffs (c : UnifiedProjectionCamera)
    (ext : Option (List ℚ)) : Option (List ℚ) :=
  match ext, c.dist with
  | none, some D => some D.getParameters
  | e, _ => e

/-- The distortion step of project3Functional (lines 162-174): the keypoint is
run through distortUsingExternalCoefficients when a distortion is set,
otherwise left unchanged. -/
def UnifiedProjectionCamera.distortIfPresent (c : UnifiedProjectionCamera)
    (coeffs : Option (List ℚ)) (p : ℚ × ℚ) : ℚ × ℚ :=
  match c.dist with
  | some D => D.distortPointWith coeffs p
  | none => p

/-- The J_distortion matrix of project3Functional (lines 162-174): the
distortion Jacobian is produced only when a distortion is set AND the point
Jacobian output is requested; in every other case it stays the identity. -/
def UnifiedProjectionCamera.distortJacIfRequested (c : UnifiedProjectionCamera)
    (coeffs : Option (List ℚ)) (jacPointRequested : Option Mat2x3) (p : ℚ × ℚ) : Mat2x2 :=
  match c.dist, jacPointRequested with
  | some D, some _ => D.distortJacWith coeffs p
  | _, _ => Mat2x2.id2

/-- The outputs written by project3Functional: the returned status, the
keypoint, and the final contents of the three Jacobian output matrices
(none when the corresponding output pointer was null). -/
structure ProjectOutputs where
  status : ProjectionResult
  keypoint : ℚ × ℚ
  jacPoint : Option Mat2x3
  jacIntrinsics : Option Mat2xN
  jacDistortion : Option Mat2xN
  deriving DecidableEq

/-- UnifiedProjectionCamera::project3Functional, translated from
camera-unified-projection.cc lines 112-231.  The three Jacobian arguments model
the output pointers together with their current contents: none is a null
pointer, some m a pointer to a matrix currently holding m; the returned record
carries the final contents.  sq is the external square-root oracle
(Eigen .norm() is sqrt of the squared norm). -/
def UnifiedProjectionCamera.project3Functional (c : UnifiedProjectionCamera)
    (sq : ℚ → ℚ)
    (intrinsics_ext : Option Intrinsics5)
    (dist_coeffs_ext : Option (List ℚ))
    (point_3d : ℚ × ℚ × ℚ)
    (out_jacobian_point : Option Mat2x3)
    (out_jacobian_intrinsics : Option Mat2xN)
    (out_jacobian_distortion : Option Mat2xN) : ProjectOutputs :=
  let intrinsics := intrinsics_ext.getD c.getParameters
  let dcoeffs := c.resolveDistCoeffs dist_coeffs_ext
  let xi := intrinsics.xi
  let fu := intrinsics.fu
  let fv := intrinsics.fv
  let cu := intrinsics.cu
  let cv := intrinsics.cv
  let x := point_3d.1
  let y := point_3d.2.1
  let z := point_3d.2.2
  let d := sq (x * x + y * y + z * z)
  let rz := 1 / (z + xi * d)
  if z > -(fov_parameter xi * d) then
    let kd := c.distortIfPresent dcoeffs (x * rz, y * rz)
    let J_distortion := c.distortJacIfRequested dcoeffs out_jacobian_point (x * rz, y * rz)
    let jacPointOut : Option Mat2x3 :=
      match out_jacobian_point with
      | none => none
      | some _ =>
        let rz2 := rz * rz / d
        let J00 := rz2 * (d * z + xi * (y * y + z * z))
        let J10 := -rz2 * xi * x * y
        let J01 := J10
        let J11 := rz2 * (d * z + xi * (x * x + z * z))
        let rz2b := rz2 * (-xi * z - d)
        let J02 := x * rz2b
        let J12 := y * rz2b
        some ⟨fu * (J00 * J_distortion.a00 + J10 * J_distortion.a01),
              fu * (J01 * J_distortion.a00 + J11 * J_distortion.a01),
              fu * (J02 * J_distortion.a00 + J12 * J_distortion.a01),
              fv * (J00 * J_distortion.a10 + J10 * J_distortion.a11),
              fv * (J01 * J_distortion.a10 + J11 * J_distortion.a11),
              fv * (J02 * J_distortion.a10 + J12 * J_distortion.a11)⟩
    let jacIntrinsicsOut : Option Mat2xN :=
      match out_jacobian_intrinsics with
      | none => none
      | some _ =>
        some ([fu * J_distortion.a00 * (-kd.1 * d * rz) +
                 fu * J_distortion.a01 * (-kd.2 * d * rz), kd.1, 0, 1, 0],
              [fv * J_distortion.a10 * (-kd.1 * d * rz) +
                 fv * J_distortion.a11 * (-kd.2 * d * rz), 0, kd.2, 0, 1])
    let jacDistortionOut : Option Mat2xN :=
      match c.dist, out_jacobian_distortion with
      | some D, some _ =>
        let Jd := D.distortParameterJacobian dist_coeffs_ext kd
        some (Jd.1.map (fun t => fu * t), Jd.2.map (fun t => fv * t))
      | _, _ => out_jacobian_distortion
    { status := c.evaluateProjectionResult (fu * kd.1 + cu, fv * kd.2 + cv) point_3d,
      keypoint := (fu * kd.1 + cu, fv * kd.2 + cv),
      jacPoint := jacPointOut,
      jacIntrinsics := jacIntrinsicsOut,
      jacDistortion := jacDistortionOut }
  else
    { status := .PROJECTION_INVALID,
      keypoint := (0, 0),
      jacPoint := out_jacobian_point,
      jacIntrinsics := out_jacobian_intrinsics,
      jacDistortion := out_jacobian_distortion }

/-- UnifiedProjectionCamera::intrinsicsValid, translated from
camera-unified-projection.cc lines 399-406. -/
def intrinsicsValid (intrinsics : List ℚ) : Bool :=
  decide (intrinsics.length = 5) &&
  decide (0 ≤ intrinsics.getD 0 0) &&
  decide (0 < intrinsics.getD 1 0) &&
  decide (0 < intrinsics.getD 2 0) &&
  decide (0 < intrinsics.getD 3 0) &&
  decide (0 < intrinsics.getD 4 0)

/-- The validated constructor (camera-unified-projection.cc lines 37-49):
CHECK(intrinsicsValid(intrinsics)) aborts fatally on violation, modelled as
returning none. -/
def mkUnifiedProjectionCamera (intrinsics : List ℚ) (image_width image_height : ℕ)
    (dist : Option Distortion) : Option UnifiedProjectionCamera :=
  if intrinsicsValid intrinsics then
    some { intr := { xi := intrinsics.getD 0 0, fu := intrinsics.getD 1 0,
                     fv := intrinsics.getD 2 0, cu := intrinsics.getD 3 0,
                     cv := intrinsics.getD 4 0 },
           imageWidth := image_width, imageHeight := image_height, dist := dist }
  else none

/-- One random draw consumed by an iteration of createRandomKeypoint:
the two setRandom components and the rand()/RAND_MAX fraction. -/
structure RandomDraw where
  r1 : ℚ
  r2 : ℚ
  frac : ℚ

/-- The loop body of createRandomKeypoint (camera-unified-projection.cc lines
288-299): draw, recenter, normalize (norm via the sq oracle), scale by a
fraction of 1/(xi^2-1), distort, and apply the affine step. -/
def UnifiedProjectionCamera.randomKeypointCandidate (c : UnifiedProjectionCamera)
    (sq : ℚ → ℚ) (dr : RandomDraw) : ℚ × ℚ :=
  let u0 : ℚ × ℚ := (dr.r1 - 1 / 2, dr.r2 - 1 / 2)
  let n := sq (u0.1 * u0.1 + u0.2 * u0.2)
  let s := dr.frac * (1 / (c.xi * c.xi - 1))
  let u1 : ℚ × ℚ := (u0.1 / n * s, u0.2 / n * s)
  let u2 :=
    match c.dist with
    | some D => D.distort u1
    | none => u1
  (c.fu * u2.1 + c.cu, c.fv * u2.2 + c.cv)

/-- The rejection-sampling loop of createRandomKeypoint (lines 286-309):
while the current keypoint is not liftable-and-visible, generate a candidate;
the counter is pre-decremented and on reaching a value below one the keypoint
is set to the principal point and the loop exits. -/
def UnifiedProjectionCamera.randomKeypointLoop (c : UnifiedProjectionCamera)
    (sq : ℚ → ℚ) (draws : ℕ → RandomDraw) (max_tries i : ℕ) (u : ℚ × ℚ) : ℚ × ℚ :=
  if c.isLiftable u && c.isKeypointVisible u then u
  else
    match max_tries with
    | 0 => (c.cu, c.cv)
    | 1 => (c.cu, c.cv)
    | t + 2 => c.randomKeypointLoop sq draws (t + 1) (i + 1)
                 (c.randomKeypointCandidate sq (draws i))

/-- UnifiedProjectionCamera::createRandomKeypoint, translated from
camera-unified-projection.cc lines 270-311: the loop starts from the
never-visible point (width+1, height+1) with max_tries = 10. -/
def UnifiedProjectionCamera.createRandomKeypoint (c : UnifiedProjectionCamera)
    (sq : ℚ → ℚ) (draws : ℕ → RandomDraw) : ℚ × ℚ :=
  c.randomKeypointLoop sq draws 10 0 ((c.imageWidth : ℚ) + 1, (c.imageHeight : ℚ) + 1)

/-! Concrete fixtures used by witnesses and counterexamples. -/

/-- The distortion-free test camera of createTestCamera(): intrinsics
(9/10, 400, 400, 320, 240), image 640x480. -/
def testCam : UnifiedProjectionCamera where
  intr := { xi := 9 / 10, fu := 400, fv := 400, cu := 320, cv := 240 }
  imageWidth := 640
  imageHeight := 480
  dist := none

/-- A concrete distortion instance with one coefficient, used as witness input. -/
def testDist : Distortion where
  params := [1]
  distortWithCoeffs := fun cs p => (p.1 + cs.getD 0 0 * p.1, p.2)
  distortJacWithCoeffs := fun cs _ => ⟨1 + cs.getD 0 0, 0, 0, 1⟩
  undistortFn := fun p => p
  paramJacWithCoeffs := fun _ p => ([p.1], [p.2])

/-- The test camera equipped with testDist. -/
def testCamD : UnifiedProjectionCamera where
  intr := { xi := 9 / 10, fu := 400, fv := 400, cu := 320, cv := 240 }
  imageWidth := 640
  imageHeight := 480
  dist := some testDist

/-- A concrete distortion whose 2x2 distortion Jacobian is not the identity. -/
def doubleDist : Distortion where
  params := []
  distortWithCoeffs := fun _ p => (2 * p.1, p.2)
  distortJacWithCoeffs := fun _ _ => ⟨2, 0, 0, 1⟩
  undistortFn := fun p => (p.1 / 2, p.2)
  paramJacWithCoeffs := fun _ _ => ([], [])

/-- A camera carrying doubleDist, with xi = 0 and unit focal lengths. -/
def camC6 : UnifiedProjectionCamera where
  intr := { xi := 0, fu := 1, fv := 1, cu := 1, cv := 1 }
  imageWidth := 10
  imageHeight := 10
  dist := some doubleDist

/-! Theorems for the claims. -/

/-- Claim C4: isUndistortedKeypointValid(rho2_d, xi) returns true iff xi <= 1 or
rho2_d <= 1/(xi^2 - 1); in particular for xi <= 1 it is true for every rho2_d,
and for xi > 1 it is true exactly on the disk rho2_d <= 1/(xi^2 - 1). -/
theorem upc_C4_undistorted_keypoint_valid (rho2_d xi : ℚ) :
    (isUndistortedKeypointValid rho2_d xi = true ↔
      (xi ≤ 1 ∨ rho2_d ≤ 1 / (xi ^ 2 - 1))) ∧
    (xi ≤ 1 → isUndistortedKeypointValid rho2_d xi = true) ∧
    (1 < xi → (isUndistortedKeypointValid rho2_d xi = true ↔
      rho2_d ≤ 1 / (xi ^ 2 - 1))) := by
  have hsq : xi ^ 2 = xi * xi := by ring
  refine ⟨?_, ?_, ?_⟩
  · simp [isUndistortedKeypointValid, hsq]
  · intro h
    simp [isUndistortedKeypointValid, h]
  · intro h
    simp [isUndistortedKeypointValid, hsq, not_le.mpr h]

/-- Witness for C4: applies the theorem at rho2_d = 5, xi = 1/2. -/
theorem upc_C4_witness : isUndistortedKeypointValid 5 (1 / 2) = true :=
  (upc_C4_undistorted_keypoint_valid 5 (1 / 2)).2.1 (by norm_num)

/-- Claim C3: evaluateProjectionResult implements the two-predicate decision
table with minDepth = 1e-10: KEYPOINT_VISIBLE iff the keypoint is inside the
image box and the squared norm exceeds minDepth^2, KEYPOINT_OUTSIDE_IMAGE_BOX
iff it is outside the box and the squared norm exceeds minDepth^2, and
PROJECTION_INVALID whenever the squared norm is at most minDepth^2. -/
theorem upc_C3_evaluate_projection_result (c : UnifiedProjectionCamera)
    (kp : ℚ × ℚ) (p : ℚ × ℚ × ℚ) :
    (c.evaluateProjectionResult kp p = .KEYPOINT_VISIBLE ↔
      (c.isKeypointVisible kp = true ∧
        p.1 * p.1 + p.2.1 * p.2.1 + p.2.2 * p.2.2 > kMinimumDepth * kMinimumDepth)) ∧
    (c.evaluateProjectionResult kp p = .KEYPOINT_OUTSIDE_IMAGE_BOX ↔
      (c.isKeypointVisible kp = false ∧
        p.1 * p.1 + p.2.1 * p.2.1 + p.2.2 * p.2.2 > kMinimumDepth * kMinimumDepth)) ∧
    (p.1 * p.1 + p.2.1 * p.2.1 + p.2.2 * p.2.2 ≤ kMinimumDepth * kMinimumDepth →
      c.evaluateProjectionResult kp p = .PROJECTION_INVALID) := by
  cases hv : c.isKeypointVisible kp <;>
    by_cases hd : p.1 * p.1 + p.2.1 * p.2.1 + p.2.2 * p.2.2 >
        kMinimumDepth * kMinimumDepth
  · simp [UnifiedProjectionCamera.evaluateProjectionResult, hv, hd, not_le.mpr hd]
  · simp [UnifiedProjectionCamera.evaluateProjectionResult, hv, hd, not_lt.mp hd]
  · simp [UnifiedProjectionCamera.evaluateProjectionResult, hv, hd, not_le.mpr hd]
  · simp [UnifiedProjectionCamera.evaluateProjectionResult, hv, hd, not_lt.mp hd]

/-- Witness for C3: applies the theorem at the origin point, whose squared norm
0 is below minDepth^2, forcing PROJECTION_INVALID at a visible pixel. -/
theorem upc_C3_witness :
    testCam.evaluateProjectionResult (320, 240) (0, 0, 0) = .PROJECTION_INVALID :=
  (upc_C3_evaluate_projection_result testCam (320, 240) (0, 0, 0)).2.2
    (by norm_num [kMinimumDepth])

/-- Claim C8: construction from an intrinsics vector succeeds exactly when the
vector has 5 elements with xi >= 0, fu > 0, fv > 0, cu > 0, cv > 0, and every
successfully constructed camera satisfies these invariants. -/
theorem upc_C8_construction (intrinsics : List ℚ) (w h : ℕ) (D : Option Distortion) :
    ((mkUnifiedProjectionCamera intrinsics w h D).isSome = true ↔
      (intrinsics.length = 5 ∧ 0 ≤ intrinsics.getD 0 0 ∧ 0 < intrinsics.getD 1 0 ∧
       0 < intrinsics.getD 2 0 ∧ 0 < intrinsics.getD 3 0 ∧ 0 < intrinsics.getD 4 0)) ∧
    (∀ cam, mkUnifiedProjectionCamera intrinsics w h D = some cam →
      0 ≤ cam.xi ∧ 0 < cam.fu ∧ 0 < cam.fv ∧ 0 < cam.cu ∧ 0 < cam.cv) := by
  have hiff : intrinsicsValid intrinsics = true ↔
      (intrinsics.length = 5 ∧ 0 ≤ intrinsics.getD 0 0 ∧ 0 < intrinsics.getD 1 0 ∧
       0 < intrinsics.getD 2 0 ∧ 0 < intrinsics.getD 3 0 ∧ 0 < intrinsics.getD 4 0) := by
    simp only [intrinsicsValid, Bool.and_eq_true, decide_eq_true_eq, and_assoc]
  constructor
  · by_cases hvalid : intrinsicsValid intrinsics = true
    · rw [mkUnifiedProjectionCamera, if_pos hvalid]
      simpa using hiff.mp hvalid
    · rw [mkUnifiedProjectionCamera, if_neg hvalid]
      simpa using fun hcon => hvalid (hiff.mpr hcon)
  · intro cam hcam
    by_cases hvalid : intrinsicsValid intrinsics = true
    · rw [mkUnifiedProjectionCamera, if_pos hvalid] at hcam
      cases hcam
      have h5 := hiff.mp hvalid
      exact ⟨h5.2.1, h5.2.2.1, h5.2.2.2.1, h5.2.2.2.2.1, h5.2.2.2.2.2⟩
    · rw [mkUnifiedProjectionCamera, if_neg hvalid] at hcam
      cases hcam

/-- Witness for C8: applies the theorem to accept the valid vector
(0, 400, 400, 320, 240). -/
theorem upc_C8_witness :
    (mkUnifiedProjectionCamera [0, 400, 400, 320, 240] 640 480 none).isSome = true :=
  (upc_C8_construction [0, 400, 400, 320, 240] 640 480 none).1.mpr (by decide)

/-- Claim C10: the boolean flag returned by backProject3 agrees with isLiftable
on every keypoint of the same camera: both undo the affine step, apply the same
undistortion and evaluate isUndistortedKeypointValid on the same squared norm. -/
theorem upc_C10_backproject_flag_iff_liftable (c : UnifiedProjectionCamera)
    (sq : ℚ → ℚ) (kp : ℚ × ℚ) :
    (c.backProject3 sq kp).2 = c.isLiftable kp := by
  have harg : ((kp.1 - c.cu) / c.fu, (kp.2 - c.cv) / c.fv)
      = (1 / c.fu * (kp.1 - c.cu), 1 / c.fv * (kp.2 - c.cv)) := by
    rw [one_div, one_div, inv_mul_eq_div, inv_mul_eq_div]
  simp only [UnifiedProjectionCamera.backProject3, UnifiedProjectionCamera.isLiftable,
    harg]

/-- Claim C2: for every point with z <= -fov(xi)*d, where d = ||p|| and
fov(xi) = xi if xi <= 1 else 1/xi, project3Functional sets the keypoint to
(0,0), returns PROJECTION_INVALID, and leaves all three Jacobian output
matrices unmodified. -/
theorem upc_C2_invalid_projection (c : UnifiedProjectionCamera) (sq : ℚ → ℚ)
    (iE : Option Intrinsics5) (dE : Option (List ℚ)) (x y z : ℚ)
    (jp : Option Mat2x3) (ji jd : Option Mat2xN)
    (intr : Intrinsics5) (hintr : intr = iE.getD c.getParameters)
    (d : ℚ) (hd : d = sq (x * x + y * y + z * z))
    (hgate : z ≤ -(fov_parameter intr.xi * d)) :
    c.project3Functional sq iE dE (x, y, z) jp ji jd =
      { status := .PROJECTION_INVALID, keypoint := (0, 0),
        jacPoint := jp, jacIntrinsics := ji, jacDistortion := jd } := by
  subst hintr hd
  simp only [UnifiedProjectionCamera.project3Functional]
  rw [if_neg (not_lt.mpr hgate)]

/-- Witness for C2: the point (0,0,-1) with xi = 9/10 fails the gate and is
mapped to the zero keypoint with PROJECTION_INVALID and untouched Jacobians. -/
theorem upc_C2_witness :
    testCam.project3Functional (fun _ => 1) none none (0, 0, -1) none none none =
      { status := .PROJECTION_INVALID, keypoint := (0, 0),
        jacPoint := none, jacIntrinsics := none, jacDistortion := none } :=
  upc_C2_invalid_projection testCam (fun _ => 1) none none 0 0 (-1) none none none
    _ rfl _ rfl
    (by norm_num [testCam, fov_parameter, UnifiedProjectionCamera.getParameters])

/-- Claim C1: for every point passing the validity gate, the projected keypoint
is computed by the unified-sphere projection followed by the affine step: with
d = ||p|| and rz = 1/(z + xi*d), (u,v) = (x*rz, y*rz), distortion (if present)
applied in place, and the returned keypoint (fu*u + cu, fv*v + cv) using the
active intrinsics. -/
theorem upc_C1_projection_formula (c : UnifiedProjectionCamera) (sq : ℚ → ℚ)
    (iE : Option Intrinsics5) (dE : Option (List ℚ)) (x y z : ℚ)
    (jp : Option Mat2x3) (ji jd : Option Mat2xN)
    (intr : Intrinsics5) (hintr : intr = iE.getD c.getParameters)
    (d rz : ℚ) (hd : d = sq (x * x + y * y + z * z))
    (hrz : rz = 1 / (z + intr.xi * d))
    (hgate : z > -(fov_parameter intr.xi * d)) :
    (c.project3Functional sq iE dE (x, y, z) jp ji jd).keypoint =
      (intr.fu * (c.distortIfPresent (c.resolveDistCoeffs dE) (x * rz, y * rz)).1 + intr.cu,
       intr.fv * (c.distortIfPresent (c.resolveDistCoeffs dE) (x * rz, y * rz)).2 + intr.cv) := by
  subst hintr hd hrz
  simp only [UnifiedProjectionCamera.project3Functional]
  rw [if_pos hgate]

/-- Witness for C1: the on-axis point (0,0,1) of the distortion-free test
camera projects to the principal point (320, 240). -/
theorem upc_C1_witness :
    (testCam.project3Functional (fun _ => 1) none none (0, 0, 1) none none none).keypoint
      = (320, 240) := by
  rw [upc_C1_projection_formula testCam (fun _ => 1) none none 0 0 1 none none none
    _ rfl _ _ rfl rfl
    (by norm_num [testCam, fov_parameter, UnifiedProjectionCamera.getParameters])]
  norm_num [testCam, UnifiedProjectionCamera.distortIfPresent,
    UnifiedProjectionCamera.resolveDistCoeffs, UnifiedProjectionCamera.getParameters]

/-- Claim C5: backProject3 writes the bearing vector
(u, v, 1 - xi*(rho2_d+1)/(xi+sqrt t)) with (u,v) the affine-undone and
undistorted keypoint, rho2_d = u^2+v^2 and t = max(1 + (1-xi^2)*rho2_d, 0);
its boolean return value equals isUndistortedKeypointValid(rho2_d, xi) and
does not depend on the image box. -/
theorem upc_C5_backproject_formula (c : UnifiedProjectionCamera) (sq : ℚ → ℚ)
    (kp : ℚ × ℚ) (u v : ℚ)
    (huv : (u, v) = c.undistortIfPresent ((kp.1 - c.cu) / c.fu, (kp.2 - c.cv) / c.fv)) :
    c.backProject3 sq kp =
      ((u, v, 1 - c.xi * ((u * u + v * v) + 1) /
          (c.xi + sq (max (1 + (1 - c.xi ^ 2) * (u * u + v * v)) 0))),
       isUndistortedKeypointValid (u * u + v * v) c.xi) ∧
    (∀ w h : ℕ,
      ({ c with imageWidth := w, imageHeight := h } :
          UnifiedProjectionCamera).backProject3 sq kp = c.backProject3 sq kp) := by
  constructor
  · simp only [UnifiedProjectionCamera.backProject3, ← huv]
    norm_num [pow_two]
  · intro w h
    rfl

/-- Witness for C5: back-projecting the principal point of the test camera
yields the bearing vector (0, 0, 10/19) and the flag true. -/
theorem upc_C5_witness :
    testCam.backProject3 (fun _ => 1) (320, 240) = ((0, 0, 10 / 19), true) := by
  rw [(upc_C5_backproject_formula testCam (fun _ => 1) (320, 240) 0 0
    (by norm_num [testCam, UnifiedProjectionCamera.undistortIfPresent,
      UnifiedProjectionCamera.cu, UnifiedProjectionCamera.cv,
      UnifiedProjectionCamera.fu, UnifiedProjectionCamera.fv])).1]
  norm_num [testCam, UnifiedProjectionCamera.xi, isUndistortedKeypointValid]

/-- Claim C6 (amended): whenever the intrinsics Jacobian is requested for a
valid point, the 2x5 output has column 0 equal to J_d with rows scaled by fu
and fv applied to (-u*d*rz, -v*d*rz), where J_d is the distortion Jacobian only
when the point Jacobian is also requested and distortion is present, and the
identity otherwise; columns 1-4 hold exactly (0,1)=u, (0,3)=1, (1,2)=v,
(1,4)=1 with all other entries zero (u,v the distorted coordinates). -/
theorem upc_C6_intrinsics_jacobian (c : UnifiedProjectionCamera) (sq : ℚ → ℚ)
    (iE : Option Intrinsics5) (dE : Option (List ℚ)) (x y z : ℚ)
    (jp : Option Mat2x3) (m : Mat2xN) (jd : Option Mat2xN)
    (intr : Intrinsics5) (hintr : intr = iE.getD c.getParameters)
    (d rz : ℚ) (hd : d = sq (x * x + y * y + z * z))
    (hrz : rz = 1 / (z + intr.xi * d))
    (hgate : z > -(fov_parameter intr.xi * d))
    (kd : ℚ × ℚ) (hkd : kd = c.distortIfPresent (c.resolveDistCoeffs dE) (x * rz, y * rz))
    (Jd : Mat2x2)
    (hJd : Jd = c.distortJacIfRequested (c.resolveDistCoeffs dE) jp (x * rz, y * rz)) :
    (c.project3Functional sq iE dE (x, y, z) jp (some m) jd).jacIntrinsics =
      some ([intr.fu * Jd.a00 * (-kd.1 * d * rz) + intr.fu * Jd.a01 * (-kd.2 * d * rz),
             kd.1, 0, 1, 0],
            [intr.fv * Jd.a10 * (-kd.1 * d * rz) + intr.fv * Jd.a11 * (-kd.2 * d * rz),
             0, kd.2, 0, 1]) := by
  subst hintr hd hrz hkd hJd
  simp only [UnifiedProjectionCamera.project3Functional]
  rw [if_pos hgate]

/-- Counterexample to claim C6 as stated: on a camera with a distortion whose
Jacobian is [[2,0],[0,1]], requesting the intrinsics Jacobian WITHOUT the point
Jacobian at the point (1,0,1) (d = 1, rz = 1, distorted u = 2) produces column
0 entry -2 (identity J_d), whereas the claim's formula with J_d taken to be the
distortion Jacobian predicts -4. -/
theorem upc_C6_counterexample :
    (camC6.project3Functional (fun _ => 1) none none (1, 0, 1)
        none (some ([], [])) none).jacIntrinsics
      = some ([-2, 2, 0, 1, 0], [0, 0, 0, 0, 1]) ∧
    (camC6.fu * (doubleDist.distortJacWith (camC6.resolveDistCoeffs none) (1, 0)).a00
        * (-2 * 1 * 1) +
     camC6.fu * (doubleDist.distortJacWith (camC6.resolveDistCoeffs none) (1, 0)).a01
        * (-0 * 1 * 1)) = -4 ∧
    (some ([-2, 2, 0, 1, 0], [0, 0, 0, 0, 1]) : Option Mat2xN)
      ≠ some ([-4, 2, 0, 1, 0], [0, 0, 0, 0, 1]) := by
  refine ⟨?_, ?_, ?_⟩
  · norm_num [UnifiedProjectionCamera.project3Functional, camC6, doubleDist,
      fov_parameter, UnifiedProjectionCamera.getParameters,
      UnifiedProjectionCamera.resolveDistCoeffs, UnifiedProjectionCamera.distortIfPresent,
      UnifiedProjectionCamera.distortJacIfRequested, Distortion.distortPointWith,
      Distortion.getParameters, Mat2x2.id2]
  · norm_num [camC6, doubleDist, UnifiedProjectionCamera.fu,
      UnifiedProjectionCamera.resolveDistCoeffs, Distortion.distortJacWith,
      Distortion.getParameters]
  · intro hcon
    have h0 : ([-2, 2, 0, 1, 0] : List ℚ) = [-4, 2, 0, 1, 0] :=
      congrArg Prod.fst (Option.some.inj hcon)
    simp only [List.cons.injEq] at h0
    norm_num at h0

/-- Witness for the amended C6: on the distortion-free test camera at the
on-axis point, the intrinsics Jacobian is [[0,0,0,1,0],[0,0,0,0,1]]. -/
theorem upc_C6_witness :
    (testCam.project3Functional (fun _ => 1) none none (0, 0, 1)
        none (some ([], [])) none).jacIntrinsics
      = some ([0, 0, 0, 1, 0], [0, 0, 0, 0, 1]) := by
  rw [upc_C6_intrinsics_jacobian testCam (fun _ => 1) none none 0 0 1 none ([], []) none
    _ rfl _ _ rfl rfl
    (by norm_num [testCam, fov_parameter, UnifiedProjectionCamera.getParameters])
    _ rfl _ rfl]
  norm_num [testCam, UnifiedProjectionCamera.distortIfPresent,
    UnifiedProjectionCamera.distortJacIfRequested,
    UnifiedProjectionCamera.resolveDistCoeffs, Mat2x2.id2,
    UnifiedProjectionCamera.getParameters]

/-- Helper for C7: when a distortion is set, the coefficient vector resolved in
step 1 of project3Functional is the external vector if present, else the
distortion object's stored parameters. -/
theorem resolveDistCoeffs_eq_getD (c : UnifiedProjectionCamera) (D : Distortion)
    (hD : c.dist = some D) (dE : Option (List ℚ)) :
    c.resolveDistCoeffs dE = some (dE.getD D.params) := by
  cases dE <;>
    simp [UnifiedProjectionCamera.resolveDistCoeffs, hD, Distortion.getParameters]

/-- Claim C7: when the distortion-coefficients Jacobian is requested and
distortion is present, project3Functional delegates to the distortion model's
parameter Jacobian evaluated with the active coefficient vector resolved in
step 1 (external if present, else the stored coefficients), at the distorted
normalized point, and scales the resulting rows by fu and fv. -/
theorem upc_C7_distortion_jacobian (c : UnifiedProjectionCamera) (sq : ℚ → ℚ)
    (iE : Option Intrinsics5) (dE : Option (List ℚ)) (x y z : ℚ)
    (jp : Option Mat2x3) (ji : Option Mat2xN) (m : Mat2xN)
    (D : Distortion) (hD : c.dist = some D)
    (intr : Intrinsics5) (hintr : intr = iE.getD c.getParameters)
    (d rz : ℚ) (hd : d = sq (x * x + y * y + z * z))
    (hrz : rz = 1 / (z + intr.xi * d))
    (hgate : z > -(fov_parameter intr.xi * d))
    (coeffs : List ℚ) (hcoeffs : c.resolveDistCoeffs dE = some coeffs)
    (kd : ℚ × ℚ) (hkd : kd = c.distortIfPresent (c.resolveDistCoeffs dE) (x * rz, y * rz)) :
    (c.project3Functional sq iE dE (x, y, z) jp ji (some m)).jacDistortion =
      some (((D.paramJacWithCoeffs coeffs kd).1.map fun t => intr.fu * t),
            ((D.paramJacWithCoeffs coeffs kd).2.map fun t => intr.fv * t)) := by
  have hc := resolveDistCoeffs_eq_getD c D hD dE
  rw [hc] at hcoeffs
  obtain rfl : coeffs = dE.getD D.params := (Option.some.inj hcoeffs).symm
  subst hintr hd hrz hkd
  simp only [UnifiedProjectionCamera.project3Functional]
  rw [if_pos hgate]
  simp only [hD, Distortion.distortParameterJacobian]

/-- Witness for C7: on the test camera with one distortion coefficient, the
distortion-coefficients Jacobian at the on-axis point is some ([0], [0]). -/
theorem upc_C7_witness :
    (testCamD.project3Functional (fun _ => 1) none none (0, 0, 1)
        none none (some ([], []))).jacDistortion
      = some ([0], [0]) := by
  rw [upc_C7_distortion_jacobian testCamD (fun _ => 1) none none 0 0 1 none none ([], [])
    testDist rfl _ rfl _ _ rfl rfl
    (by norm_num [testCamD, fov_parameter, UnifiedProjectionCamera.getParameters])
    [1] (by simp [testCamD, testDist, UnifiedProjectionCamera.resolveDistCoeffs,
      Distortion.getParameters])
    _ rfl]
  norm_num [testCamD, testDist, UnifiedProjectionCamera.distortIfPresent,
    UnifiedProjectionCamera.resolveDistCoeffs, Distortion.distortPointWith,
    Distortion.getParameters]

/-- Claim C9: for every sequence of random draws, createRandomKeypoint returns
either a keypoint that is both liftable and inside the image box, or, after the
bounded loop of 10 attempts is exhausted, exactly the principal point (cu, cv);
exhaustion is never a fatal error. -/
theorem upc_C9_random_keypoint (c : UnifiedProjectionCamera) (sq : ℚ → ℚ)
    (draws : ℕ → RandomDraw) :
    (c.isLiftable (c.createRandomKeypoint sq draws) = true ∧
     c.isKeypointVisible (c.createRandomKeypoint sq draws) = true) ∨
    c.createRandomKeypoint sq draws = (c.cu, c.cv) := by
  have key : ∀ m i u,
      (c.isLiftable (c.randomKeypointLoop sq draws m i u) = true ∧
       c.isKeypointVisible (c.randomKeypointLoop sq draws m i u) = true) ∨
      c.randomKeypointLoop sq draws m i u = (c.cu, c.cv) := by
    intro m
    induction m with
    | zero =>
      intro i u
      rw [UnifiedProjectionCamera.randomKeypointLoop.eq_def]
      cases hLV : c.isLiftable u && c.isKeypointVisible u with
      | false => simp
      | true =>
        simp only [Bool.and_eq_true] at hLV
        simp [hLV.1, hLV.2]
    | succ t ih =>
      intro i u
      rw [UnifiedProjectionCamera.randomKeypointLoop.eq_def]
      cases hLV : c.isLiftable u && c.isKeypointVisible u with
      | false =>
        cases t with
        | zero => simp
        | succ t2 =>
          simpa using ih (i + 1) (c.randomKeypointCandidate sq (draws i))
      | true =>
        simp only [Bool.and_eq_true] at hLV
        simp [hLV.1, hLV.2]
  exact key 10 0 ((c.imageWidth : ℚ) + 1, (c.imageHeight : ℚ) + 1)

end Aslam
